import Mathlib

/-!
Verification of the bean-lens normalization engine
(`src/bean_lens/normalization/engine.py`, `repository.py`, `types.py`).

The Python modules are shallowly embedded below.  Machine floats of the
source are modelled as exact rationals; Python side effects (unknown-queue
log writes, webhook posts) are modelled by an explicit environment value
and by returning the list of emitted events; Python exceptions
(`KeyError` from a dangling alias lookup, `OSError` from an unwritable
log path) are modelled with `Except`.

Text model: the source normalizes strings with `unicodedata.normalize
("NFKC", ...)`, `str.lower()`, and the regex classes `\w` / `\s`.
These Unicode-table functions are embedded for the character repertoire
the dictionaries actually use (ASCII plus precomposed Hangul syllables):
NFKC is the identity there, `lower` is ASCII lowercasing, `\w` is ASCII
alphanumerics, underscore and every non-ASCII character, and `\s` is the
ASCII whitespace class.  All concrete inputs used in theorems below stay
inside that repertoire.

Two library calls are kept abstract, as parameters bundled in `Ext`:
`re.search(pattern, raw, re.IGNORECASE)` (an arbitrary regular-expression
search, only its success/failure matters to the engine) and
`difflib.SequenceMatcher(None, a, b).ratio()` (the spec explicitly leaves
the similarity function an implementation choice).
-/

namespace BeanLens

/-- The closed domain enumeration from `types.py` (`Domain` Literal). -/
inductive Domain
  | process
  | variety
  | roast_level
  | country
  | flavor_note
deriving DecidableEq

/-- Canonical dictionary entry, from `repository.py` (`Term` dataclass). -/
structure Term where
  domain : Domain
  key : String
  label_en : String
  label_ko : String
deriving DecidableEq

/-- Alias entry, from `repository.py` (`Alias` dataclass).  The source
field `alias` is a reserved word in Lean and is spelled `aliasText`
here; `match_type` ranges over "exact" / "regex" / "contains" and
`alias_kind` over "semantic" / "typo". -/
structure Alias where
  domain : Domain
  key : String
  aliasText : String
  match_type : String
  priority : Int
  alias_kind : String := "semantic"
deriving DecidableEq

/-- The contents of a loaded `DictionaryRepository`: the two ordered
collections of one dictionary version. -/
structure Snapshot where
  terms : List Term
  aliases : List Alias
deriving DecidableEq

/-- `MatchResult` dataclass from `engine.py`.  `method` is one of the
Literal strings of `types.py`. -/
structure MatchResult where
  key : String
  label_en : String
  label_ko : String
  confidence : ℚ
  method : String
  candidates : List String
  reason : Option String := none
deriving DecidableEq

/-- `NormalizationConfig` dataclass from `engine.py`, floats as ℚ. -/
structure NormalizationConfig where
  dictionary_version : String := "v1"
  fuzzy_threshold : ℚ := 86/100
  flavor_note_mode : String := "strict"
  flavor_note_fuzzy_threshold : ℚ := 94/100
  unknown_queue_path : Option String := none
  unknown_min_confidence : Option ℚ := none
  unknown_queue_webhook_url : Option String := none
  unknown_queue_webhook_timeout_sec : ℚ := 2
  unknown_queue_webhook_token : Option String := none

/-- `NormalizedItem` pydantic model from `types.py`. -/
structure NormalizedItem where
  domain : Domain
  raw : String
  normalized_key : Option String := none
  normalized_label_en : Option String := none
  normalized_label_ko : Option String := none
  confidence : ℚ := 0
  method : String := "unmapped"
  candidates : List String := []
  reason : Option String := none
deriving DecidableEq

/-- `NormalizedBeanInfo` pydantic model from `types.py`. -/
structure NormalizedBeanInfo where
  dictionary_version : String
  process : Option NormalizedItem := none
  roast_level : Option NormalizedItem := none
  country : Option NormalizedItem := none
  varieties : List NormalizedItem := []
  flavor_notes : List NormalizedItem := []
  warnings : List String := []

/-- The payload dict built by `NormalizationEngine._enqueue_unknown`. -/
structure UnknownQueueEvent where
  ts : String
  domain : Domain
  raw : String
  confidence : ℚ
  reason : String
  method : String
  normalized_key : Option String
  dictionary_version : String
deriving DecidableEq

/-- `Origin` pydantic model from `schema.py` (fields the engine reads). -/
structure Origin where
  country : Option String := none

/-- `BeanInfo` pydantic model from `schema.py` (fields the engine reads). -/
structure BeanInfo where
  origin : Option Origin := none
  variety : Option (List String) := none
  process : Option String := none
  roast_level : Option String := none
  flavor_notes : Option (List String) := none

/-- Python exceptions that can escape the engine code under analysis:
`KeyError` from `_term_index[alias.domain][alias.key]` on a dangling
alias, `OSError` from the unguarded unknown-queue file append. -/
inductive PyErr
  | keyError
  | osError
deriving DecidableEq

/-- The outside world as the engine sees it: whether creating/opening the
configured unknown-queue log path for append succeeds, and the wall
clock used for the event timestamp.  Webhook delivery outcome is not
modelled because `_send_unknown_webhook` swallows every delivery error
(`URLError`, `TimeoutError`, `ValueError`). -/
structure Env where
  pathWritable : Bool
  now : String

/-- The two external library calls the matcher makes, kept abstract:
`regexSearch pat raw` models the truth of
`re.search(pat, raw, re.IGNORECASE)`, and `ratio a b` models
`difflib.SequenceMatcher(None, a, b).ratio()`. -/
structure Ext where
  regexSearch : String → String → Bool
  ratio : String → String → ℚ

/- ---------------------------------------------------------------------
Text utilities (`_normalize_text`, `str.strip`, `_split_multi_values`).
--------------------------------------------------------------------- -/

/-- Python ASCII whitespace class (`\s` restricted to ASCII, also what
`str.strip()` removes on the inputs considered here). -/
def isSpaceChar (c : Char) : Bool :=
  c.toNat == 32 || c.toNat == 9 || c.toNat == 10 ||
  c.toNat == 13 || c.toNat == 11 || c.toNat == 12

/-- Python `str.lower()` restricted to the modelled repertoire: ASCII
uppercase is mapped down, every other character is unchanged. -/
def pyLower (c : Char) : Char :=
  if 'A' ≤ c && c ≤ 'Z' then Char.ofNat (c.toNat + 32) else c

/-- The regex class `\w` on the modelled repertoire: ASCII alphanumerics,
underscore, and every non-ASCII character (covers the Hangul labels). -/
def isWordChar (c : Char) : Bool :=
  (c.isAlpha && c.toNat < 128) || c.isDigit || c == '_' || c.toNat ≥ 128

/-- Python `str.strip()`: drop leading and trailing whitespace. -/
def stripChars (l : List Char) : List Char :=
  ((l.dropWhile isSpaceChar).reverse.dropWhile isSpaceChar).reverse

/-- Python `str.strip()` on `String`. -/
def pyStrip (s : String) : String :=
  ⟨stripChars s.data⟩

/-- One pass of `re.sub(r"\s+", " ", text)`: every maximal run of
whitespace becomes a single space.  The flag records whether the
previous character belonged to a whitespace run. -/
def collapseWsGo : Bool → List Char → List Char
  | _, [] => []
  | prevWs, c :: rest =>
    if isSpaceChar c then
      if prevWs then collapseWsGo true rest
      else ' ' :: collapseWsGo true rest
    else c :: collapseWsGo false rest

/-- `_normalize_text` from `engine.py` on a character list:
NFKC (identity on the modelled repertoire), `lower()`, `strip()`,
replace `_` and `-` by a space, `re.sub(r"[^\w\s]", " ", ...)`,
`re.sub(r"\s+", " ", ...)`. -/
def normalizeTextChars (l : List Char) : List Char :=
  let lowered := l.map pyLower
  let stripped := stripChars lowered
  let dashless := stripped.map (fun c => if c == '_' || c == '-' then ' ' else c)
  let wordOnly := dashless.map (fun c => if !(isWordChar c || isSpaceChar c) then ' ' else c)
  collapseWsGo false wordOnly

/-- `_normalize_text` from `engine.py`. -/
def normalizeText (s : String) : String :=
  ⟨normalizeTextChars s.data⟩

/-- Separator set of `_split_multi_values`:
comma, newline, semicolon, slash, pipe, middle dot, ideographic comma. -/
def isSepChar (c : Char) : Bool :=
  c == ',' || c == '\n' || c == ';' || c == '/' || c == '|' || c == '·' || c == '、'

/-- Split on every single separator character.  `re.split(r"[...]+", t)`
splits on maximal runs; splitting on single characters instead yields
extra empty pieces in the middle, which the caller filters out anyway,
so the filtered result is identical. -/
def splitAtSeps : List Char → List (List Char)
  | [] => [[]]
  | c :: rest =>
    let r := splitAtSeps rest
    if isSepChar c then [] :: r
    else
      match r with
      | [] => [[c]]
      | t :: ts => (c :: t) :: ts

/-- `_split_multi_values` from `engine.py`. -/
def splitMultiValues (value : String) : List String :=
  let text := pyStrip value
  if text = "" then []
  else
    let tokens := splitAtSeps text.data
    let items := (tokens.map (fun t => pyStrip ⟨t⟩)).filter (fun t => t ≠ "")
    if items.isEmpty then [text] else items

/- ---------------------------------------------------------------------
Dictionary repository (`repository.py`) and engine construction.
--------------------------------------------------------------------- -/

/-- Error raised when the requested version has no packaged data:
`import_module` raises `ModuleNotFoundError`, the fallback
`files(...).read_text` then raises `FileNotFoundError`.  The codebase
defines no `DictionaryNotFound` class. -/
inductive LoadError
  | fileNotFound
deriving DecidableEq

/-- `DictionaryRepository.__init__`: `dataFor` models which versions have
packaged data (python module or json file) and what that data holds. -/
def loadRepository (dataFor : String → Option Snapshot) (version : String) :
    Except LoadError Snapshot :=
  match dataFor version with
  | some snap => .ok snap
  | none => .error .fileNotFound

/-- `_build_term_index`, as a lookup function: the python dict keyed by
`(domain, key)` keeps the last assignment, hence `getLast?`. -/
def termIndexLookup (terms : List Term) (d : Domain) (k : String) : Option Term :=
  (terms.filter (fun t => t.domain == d && t.key == k)).getLast?

/-- `NormalizationEngine.__init__`: loads the repository for the
configured version and builds the term index.  No configuration value is
validated; the only possible failure is the repository load. -/
def engineInit (dataFor : String → Option Snapshot) (cfg : NormalizationConfig) :
    Except LoadError Snapshot :=
  loadRepository dataFor cfg.dictionary_version

/-- `DictionaryRepository.terms_by_domain`. -/
def termsByDomain (snap : Snapshot) (d : Domain) : List Term :=
  snap.terms.filter (fun t => t.domain == d)

/-- `DictionaryRepository.aliases_by_domain`. -/
def aliasesByDomain (snap : Snapshot) (d : Domain) : List Alias :=
  snap.aliases.filter (fun a => a.domain == d)

/- ---------------------------------------------------------------------
Matching strategies (`engine.py`).
--------------------------------------------------------------------- -/

/-- Stable insertion keeping existing entries of equal or lower priority
first; folding it over a list reproduces the stable ascending
`sorted(..., key=lambda item: item.priority)` of the source. -/
def insertByPriority (a : Alias) : List Alias → List Alias
  | [] => [a]
  | b :: bs => if b.priority ≤ a.priority then b :: insertByPriority a bs else a :: b :: bs

/-- Python `sorted` by `priority` (stable, ascending). -/
def sortByPriority (l : List Alias) : List Alias :=
  l.foldl (fun acc a => insertByPriority a acc) []

/-- The candidate strings of one term, in source order. -/
def candidatesOf (t : Term) : List String :=
  [t.key, t.label_en, t.label_ko]

/-- `_match_exact`: first term of the domain one of whose candidates
normalizes to the normalized raw value. -/
def matchExact (snap : Snapshot) (d : Domain) (raw : String) : Option MatchResult :=
  let nraw := normalizeText raw
  (termsByDomain snap d).findSome? fun t =>
    if (candidatesOf t).any (fun c => nraw == normalizeText c) then
      some { key := t.key, label_en := t.label_en, label_ko := t.label_ko,
             confidence := 98/100, method := "exact", candidates := [t.key] }
    else none

/-- `_match_from_alias`: resolve the alias through the term index.
`self._term_index[alias.domain][alias.key]` raises `KeyError` when the
referenced term does not exist. -/
def matchFromAlias (snap : Snapshot) (a : Alias) (confidence : ℚ) (method : String) :
    Except PyErr MatchResult :=
  match termIndexLookup snap.terms a.domain a.key with
  | some t =>
      .ok { key := t.key, label_en := t.label_en, label_ko := t.label_ko,
            confidence := confidence, method := method, candidates := [t.key] }
  | none => .error .keyError

/-- Shared loop shape of `_match_alias` / `_match_regex` /
`_match_contains`: first alias in the given (already sorted) list whose
test succeeds is resolved through the term index. -/
def firstAliasMatch (snap : Snapshot) (test : Alias → Bool) (confidence : ℚ)
    (method : String) : List Alias → Except PyErr (Option MatchResult)
  | [] => .ok none
  | a :: rest =>
    if test a then (matchFromAlias snap a confidence method).map some
    else firstAliasMatch snap test confidence method rest

/-- The alias list `_match_alias` iterates: aliases of the domain with
`match_type == "exact"`, filtered by the optional allow-lists, sorted by
ascending priority. -/
def aliasExactPool (snap : Snapshot) (d : Domain)
    (allowedMatchTypes allowedAliasKinds : Option (List String)) : List Alias :=
  sortByPriority ((aliasesByDomain snap d).filter (fun a =>
    a.match_type == "exact"
    && (match allowedMatchTypes with
        | none => true
        | some l => l.contains a.match_type)
    && (match allowedAliasKinds with
        | none => true
        | some l => l.contains a.alias_kind)))

/-- `_match_alias`: first exact-type alias whose normalized text equals
the normalized raw value, at confidence 0.9, method "alias". -/
def matchAlias (snap : Snapshot) (d : Domain) (raw : String)
    (allowedMatchTypes allowedAliasKinds : Option (List String)) :
    Except PyErr (Option MatchResult) :=
  let nraw := normalizeText raw
  firstAliasMatch snap (fun a => nraw == normalizeText a.aliasText) (9/10) "alias"
    (aliasExactPool snap d allowedMatchTypes allowedAliasKinds)

/-- `_match_regex`: regex-type aliases by priority, pattern searched
case-insensitively against the raw (non-normalized) string, confidence
0.88, method "regex". -/
def matchRegex (ext : Ext) (snap : Snapshot) (d : Domain) (raw : String) :
    Except PyErr (Option MatchResult) :=
  firstAliasMatch snap (fun a => ext.regexSearch a.aliasText raw) (88/100) "regex"
    (sortByPriority ((aliasesByDomain snap d).filter (fun a => a.match_type == "regex")))

/-- Contiguous-substring test, Python `needle in hay` on strings. -/
def startsWithChars : List Char → List Char → Bool
  | _, [] => true
  | [], _ :: _ => false
  | h :: hs, n :: ns => h == n && startsWithChars hs ns

/-- Python substring membership `needle in hay`. -/
def containsSub : List Char → List Char → Bool
  | [], needle => needle.isEmpty
  | h :: t, needle => startsWithChars (h :: t) needle || containsSub t needle

/-- `_match_contains`: contains-type aliases by priority, normalized
alias a substring of the normalized raw value, confidence 0.86,
method "alias". -/
def matchContains (snap : Snapshot) (d : Domain) (raw : String) :
    Except PyErr (Option MatchResult) :=
  let nraw := normalizeText raw
  firstAliasMatch snap
    (fun a => containsSub nraw.data (normalizeText a.aliasText).data) (86/100) "alias"
    (sortByPriority ((aliasesByDomain snap d).filter (fun a => a.match_type == "contains")))

/-- The best-ratio fold of `_match_fuzzy`: strict improvement over an
initial best of 0.0 and no term, candidates visited in source order. -/
def fuzzyBest (ext : Ext) (snap : Snapshot) (d : Domain) (raw : String) :
    ℚ × Option Term :=
  let nraw := normalizeText raw
  (termsByDomain snap d).foldl
    (fun best t =>
      (candidatesOf t).foldl
        (fun best c =>
          let r := ext.ratio nraw (normalizeText c)
          if r > best.1 then (r, some t) else best)
        best)
    (0, none)

/-- Model of Python `round(x, 2)` (the float rounds half to even; the
engine never compares the rounded value against anything at a tie, so
half-up rounding is an adequate exact model). -/
def round2 (x : ℚ) : ℚ :=
  (round (x * 100) : ℤ) / 100

/-- Model of the f-string `f"{best_ratio:.2f}"` for ratios in [0, 1]. -/
def formatRatio (x : ℚ) : String :=
  let n := round (x * 100)
  let ip := n / 100
  let fp := n % 100
  toString ip ++ "." ++ (if fp < 10 then "0" else "") ++ toString fp

/-- `_match_fuzzy`: accept the best term iff its ratio reaches the
resolved threshold; confidence is the ratio rounded to two places and
clamped into [0.70, 0.85]. -/
def matchFuzzy (ext : Ext) (snap : Snapshot) (cfg : NormalizationConfig)
    (d : Domain) (raw : String) (threshold : Option ℚ) : Option MatchResult :=
  let best := fuzzyBest ext snap d raw
  let resolved := threshold.getD cfg.fuzzy_threshold
  match best.2 with
  | some t =>
      if best.1 ≥ resolved then
        some { key := t.key, label_en := t.label_en, label_ko := t.label_ko,
               confidence := max (7/10) (min (85/100) (round2 best.1)),
               method := "fuzzy", candidates := [t.key],
               reason := some ("fuzzy_score=" ++ formatRatio best.1) }
      else none
  | none => none

/-- `_is_strict_flavor_note`. -/
def isStrictFlavorNote (cfg : NormalizationConfig) (d : Domain) : Bool :=
  d == Domain.flavor_note && String.mk (cfg.flavor_note_mode.data.map pyLower) == "strict"

/-- The chained `a or b or ...` strategy dispatch of `normalize_one`,
on the stripped value. -/
def matchPipeline (ext : Ext) (cfg : NormalizationConfig) (snap : Snapshot)
    (d : Domain) (value : String) : Except PyErr (Option MatchResult) :=
  if isStrictFlavorNote cfg d then
    match matchExact snap d value with
    | some m => .ok (some m)
    | none =>
      match matchAlias snap d value (some ["exact"]) (some ["typo"]) with
      | .error e => .error e
      | .ok (some m) => .ok (some m)
      | .ok none =>
          .ok (matchFuzzy ext snap cfg d value (some cfg.flavor_note_fuzzy_threshold))
  else
    match matchExact snap d value with
    | some m => .ok (some m)
    | none =>
      match matchAlias snap d value none none with
      | .error e => .error e
      | .ok (some m) => .ok (some m)
      | .ok none =>
        match matchRegex ext snap d value with
        | .error e => .error e
        | .ok (some m) => .ok (some m)
        | .ok none =>
          match matchContains snap d value with
          | .error e => .error e
          | .ok (some m) => .ok (some m)
          | .ok none => .ok (matchFuzzy ext snap cfg d value none)

/- ---------------------------------------------------------------------
Unknown-queue reporter and `normalize_one` (`engine.py`).
--------------------------------------------------------------------- -/

/-- The payload dict `_enqueue_unknown` builds. -/
def mkEvent (env : Env) (cfg : NormalizationConfig) (d : Domain) (raw : String)
    (confidence : ℚ) (reason method : String) (normalized_key : Option String) :
    UnknownQueueEvent :=
  { ts := env.now, domain := d, raw := raw, confidence := confidence,
    reason := reason, method := method, normalized_key := normalized_key,
    dictionary_version := cfg.dictionary_version }

/-- The sink part of `_enqueue_unknown`.  The file append
(`path.parent.mkdir` / `path.open("a")` / `f.write`) is not wrapped in
any `try`, so an unwritable path raises `OSError`.  The webhook call
swallows `URLError`, `TimeoutError` and `ValueError`, so it never
raises regardless of delivery outcome. -/
def enqueueUnknown (env : Env) (cfg : NormalizationConfig) : Except PyErr Unit :=
  match cfg.unknown_queue_path with
  | some _ => if env.pathWritable then .ok () else .error .osError
  | none => .ok ()

/-- The `NormalizedItem` built by `normalize_one` from a `MatchResult`. -/
def mkItem (d : Domain) (raw : String) (m : MatchResult) : NormalizedItem :=
  { domain := d, raw := raw, normalized_key := some m.key,
    normalized_label_en := some m.label_en, normalized_label_ko := some m.label_ko,
    confidence := m.confidence, method := m.method, candidates := m.candidates,
    reason := m.reason }

/-- The `NormalizedItem` built on blank input (pydantic defaults fill
confidence 0, method "unmapped", empty candidates). -/
def emptyItem (d : Domain) (raw : String) : NormalizedItem :=
  { domain := d, raw := raw, reason := some "empty_input" }

/-- The `NormalizedItem` built when no strategy succeeds. -/
def unmappedItem (d : Domain) (raw : String) : NormalizedItem :=
  { domain := d, raw := raw, confidence := 0, method := "unmapped",
    candidates := [], reason := some "no_dictionary_match" }

/-- `normalize_one`.  Returns the produced item together with the list
of payloads passed to `_enqueue_unknown` (the emitted unknown-queue
events); errors are the python exceptions that escape the call. -/
def normalizeOne (ext : Ext) (env : Env) (cfg : NormalizationConfig) (snap : Snapshot)
    (d : Domain) (raw : Option String) :
    Except PyErr (NormalizedItem × List UnknownQueueEvent) :=
  match raw with
  | none => .ok (emptyItem d "", [])
  | some r =>
    if r = "" then .ok (emptyItem d "", [])
    else
      let value := pyStrip r
      if value = "" then .ok (emptyItem d r, [])
      else
        match matchPipeline ext cfg snap d value with
        | .error e => .error e
        | .ok (some m) =>
          let item := mkItem d r m
          match cfg.unknown_min_confidence with
          | some minConf =>
            if item.confidence < minConf then
              let ev := mkEvent env cfg d r item.confidence "low_confidence"
                item.method item.normalized_key
              match enqueueUnknown env cfg with
              | .ok _ => .ok (item, [ev])
              | .error e => .error e
            else .ok (item, [])
          | none => .ok (item, [])
        | .ok none =>
          let ev := mkEvent env cfg d r 0 "no_dictionary_match" "unmapped" none
          match enqueueUnknown env cfg with
          | .ok _ => .ok (unmappedItem d r, [ev])
          | .error e => .error e

/-- The dedup key of `_normalize_list`:
`item.normalized_key or _normalize_text(item.raw)`. -/
def dedupeKey (item : NormalizedItem) : String :=
  match item.normalized_key with
  | some k => if k = "" then normalizeText item.raw else k
  | none => normalizeText item.raw

/-- The loop of `_normalize_list`: `normalize_one` every expanded token
(side effects always happen), keep an item only when its dedup key is
new. -/
def normalizeListGo (ext : Ext) (env : Env) (cfg : NormalizationConfig)
    (snap : Snapshot) (d : Domain) (seen : List String) :
    List String → Except PyErr (List NormalizedItem × List UnknownQueueEvent)
  | [] => .ok ([], [])
  | r :: rest =>
    match normalizeOne ext env cfg snap d (some r) with
    | .error e => .error e
    | .ok (item, evs) =>
      let k := dedupeKey item
      if seen.contains k then
        match normalizeListGo ext env cfg snap d seen rest with
        | .error e => .error e
        | .ok (items, evs2) => .ok (items, evs ++ evs2)
      else
        match normalizeListGo ext env cfg snap d (k :: seen) rest with
        | .error e => .error e
        | .ok (items, evs2) => .ok (item :: items, evs ++ evs2)

/-- `_normalize_list`: split every raw value, match every token,
deduplicate, preserving first-seen order. -/
def normalizeList (ext : Ext) (env : Env) (cfg : NormalizationConfig)
    (snap : Snapshot) (d : Domain) (values : List String) :
    Except PyErr (List NormalizedItem × List UnknownQueueEvent) :=
  normalizeListGo ext env cfg snap d [] (values.flatMap splitMultiValues)

/-- Python truthiness of an optional string field:
`bean.process if bean.process else None`. -/
def truthyStr (s : Option String) : Option String :=
  match s with
  | some v => if v = "" then none else some v
  | none => none

/-- One single-value domain in `normalize_bean_info`:
`self.normalize_one(d, field) if field else None`. -/
def normalizeOptField (ext : Ext) (env : Env) (cfg : NormalizationConfig)
    (snap : Snapshot) (d : Domain) (field : Option String) :
    Except PyErr (Option NormalizedItem × List UnknownQueueEvent) :=
  match truthyStr field with
  | none => .ok (none, [])
  | some v =>
    match normalizeOne ext env cfg snap d (some v) with
    | .error e => .error e
    | .ok (item, evs) => .ok (some item, evs)

/-- `normalize_bean_info` (the engine method): the three single-value
domains through `normalize_one`, the two multi-value domains through
`_normalize_list`, warning tokens appended in source order. -/
def normalizeBeanInfo (ext : Ext) (env : Env) (cfg : NormalizationConfig)
    (snap : Snapshot) (bean : BeanInfo) :
    Except PyErr (NormalizedBeanInfo × List UnknownQueueEvent) :=
  match normalizeOptField ext env cfg snap Domain.process bean.process with
  | .error e => .error e
  | .ok (process, evs1) =>
    let w1 : List String :=
      match process with
      | some item => if item.method = "unmapped" then ["process_unmapped"] else []
      | none => []
    match normalizeOptField ext env cfg snap Domain.roast_level bean.roast_level with
    | .error e => .error e
    | .ok (roast_level, evs2) =>
      let w2 : List String :=
        match roast_level with
        | some item => if item.method = "unmapped" then ["roast_level_unmapped"] else []
        | none => []
      match normalizeOptField ext env cfg snap Domain.country
          (bean.origin.bind (fun o => o.country)) with
      | .error e => .error e
      | .ok (country, evs3) =>
        let w3 : List String :=
          match country with
          | some item => if item.method = "unmapped" then ["country_unmapped"] else []
          | none => []
        match normalizeList ext env cfg snap Domain.variety (bean.variety.getD []) with
        | .error e => .error e
        | .ok (varieties, evs4) =>
          let w4 : List String :=
            if varieties.any (fun item => item.method = "unmapped") then
              ["variety_partial_unmapped"]
            else []
          match normalizeList ext env cfg snap Domain.flavor_note
              (bean.flavor_notes.getD []) with
          | .error e => .error e
          | .ok (flavor_notes, evs5) =>
            let w5 : List String :=
              if flavor_notes.any (fun item => item.method = "unmapped") then
                ["flavor_note_partial_unmapped"]
              else []
            .ok ({ dictionary_version := cfg.dictionary_version,
                   process := process, roast_level := roast_level,
                   country := country, varieties := varieties,
                   flavor_notes := flavor_notes,
                   warnings := w1 ++ w2 ++ w3 ++ w4 ++ w5 },
                 evs1 ++ evs2 ++ evs3 ++ evs4 ++ evs5)

/- ---------------------------------------------------------------------
Spec-side text normalizer (for the refinement claim about §4.2), and
well-formedness predicates.
--------------------------------------------------------------------- -/

/-- The §4.2 pipeline exactly as the spec words it: canonicalize and
casefold (identity and ASCII lowercasing on the modelled repertoire),
map underscore and hyphen to a space, STRIP (delete) all
non-alphanumeric non-space characters, collapse whitespace.  This is a
spec-side definition, written to compare against `normalizeText` from
the source. -/
def specNormalizeText (s : String) : String :=
  let lowered := s.data.map pyLower
  let mapped := lowered.map (fun c => if c == '_' || c == '-' then ' ' else c)
  let stripped := mapped.filter (fun c => isWordChar c || isSpaceChar c)
  ⟨collapseWsGo false stripped⟩

/-- The §4.2 pipeline amended to what the source does: outer whitespace
trimmed, underscore and hyphen mapped to a space, every other
non-alphanumeric non-space character REPLACED BY a space, whitespace
runs collapsed.  Written as a single character map so that its equality
with the two-pass source definition is a real statement. -/
def specNormalizeTextAmended (s : String) : String :=
  let lowered := s.data.map pyLower
  let trimmed := stripChars lowered
  ⟨collapseWsGo false (trimmed.map (fun c =>
    if c == '_' || c == '-' then ' '
    else if isWordChar c || isSpaceChar c then c else ' '))⟩

/-- The snapshot invariant the spec assumes and the engine does not
enforce: every alias resolves through the term index. -/
def WfSnapshot (snap : Snapshot) : Prop :=
  ∀ a ∈ snap.aliases, (termIndexLookup snap.terms a.domain a.key).isSome = true

/-- The unknown-queue file sink cannot fail: either no log path is
configured, or the path is writable. -/
def envOk (cfg : NormalizationConfig) (env : Env) : Prop :=
  cfg.unknown_queue_path = none ∨ env.pathWritable = true

/- ---------------------------------------------------------------------
Concrete fixtures used by witnesses and counterexamples.
--------------------------------------------------------------------- -/

/-- External calls fixture: no regex alias ever matches, similarity 0. -/
def extNoRegex : Ext := ⟨fun _ _ => false, fun _ _ => 0⟩

/-- External calls fixture: similarity 1 between any two strings. -/
def extUnit : Ext := ⟨fun _ _ => false, fun _ _ => 1⟩

/-- A writable world. -/
def envW : Env := ⟨true, "2026-10-12T00:00:00+00:00"⟩

/-- A world where the unknown-queue log path cannot be opened. -/
def envRO : Env := ⟨false, "2026-10-12T00:00:00+00:00"⟩

/-- One process term with one (well-formed) semantic alias. -/
def snapP : Snapshot :=
  { terms := [{ domain := .process, key := "washed", label_en := "Washed",
                label_ko := "워시드" }],
    aliases := [{ domain := .process, key := "washed", aliasText := "wet process",
                  match_type := "exact", priority := 1, alias_kind := "semantic" }] }

/-- Same term, but the alias references the nonexistent key "washedX":
a dangling alias. -/
def snapDangling : Snapshot :=
  { terms := [{ domain := .process, key := "washed", label_en := "Washed",
                label_ko := "워시드" }],
    aliases := [{ domain := .process, key := "washedX", aliasText := "wet process",
                  match_type := "exact", priority := 1, alias_kind := "semantic" }] }

/-- One flavor-note term whose only alias is semantic. -/
def snapSem : Snapshot :=
  { terms := [{ domain := .flavor_note, key := "berry", label_en := "Berry",
                label_ko := "베리" }],
    aliases := [{ domain := .flavor_note, key := "berry", aliasText := "berry like",
                  match_type := "exact", priority := 1, alias_kind := "semantic" }] }

/-- One flavor-note term whose only alias is a typo correction. -/
def snapTypo : Snapshot :=
  { terms := [{ domain := .flavor_note, key := "jasmine", label_en := "Jasmine",
                label_ko := "자스민" }],
    aliases := [{ domain := .flavor_note, key := "jasmine", aliasText := "jasmin",
                  match_type := "exact", priority := 1, alias_kind := "typo" }] }

/-- Default configuration (`NormalizationConfig()`). -/
def cfgD : NormalizationConfig := {}

/-- Configuration with both fuzzy thresholds at 1. -/
def cfg1 : NormalizationConfig :=
  { fuzzy_threshold := 1, flavor_note_fuzzy_threshold := 1 }

/-- Configuration with an unknown-queue log path. -/
def cfgQueue : NormalizationConfig :=
  { unknown_queue_path := some "/var/log/bean_lens/unknown.jsonl" }

/-- Legacy flavor-note mode. -/
def cfgLegacy : NormalizationConfig := { flavor_note_mode := "legacy" }

/-- Configuration with a minimum-confidence floor of 1 and integral
fuzzy thresholds. -/
def cfgFloor : NormalizationConfig :=
  { fuzzy_threshold := 1, flavor_note_fuzzy_threshold := 1,
    unknown_min_confidence := some 1 }

/-- A fuzzy threshold of 2 is outside [0, 1]. -/
def cfgBadThreshold : NormalizationConfig :=
  { fuzzy_threshold := 2, flavor_note_fuzzy_threshold := 1 }

/-- Packaged-data fixture: only version "v1" has data. -/
def dataForV1 : String → Option Snapshot :=
  fun v => if v = "v1" then some snapP else none

/-- The exact-match result for "Washed" against `snapP`. -/
def mExactWashed : MatchResult :=
  { key := "washed", label_en := "Washed", label_ko := "워시드",
    confidence := 98/100, method := "exact", candidates := ["washed"] }

/-- The fuzzy result produced with the `extUnit` similarity. -/
def mFuzzyUnit : MatchResult :=
  { key := "washed", label_en := "Washed", label_ko := "워시드",
    confidence := max (7/10) (min (85/100) (round2 1)),
    method := "fuzzy", candidates := ["washed"],
    reason := some ("fuzzy_score=" ++ formatRatio 1) }

/-- The alias-match result for "berry-like" against `snapSem`. -/
def mAliasBerry : MatchResult :=
  { key := "berry", label_en := "Berry", label_ko := "베리",
    confidence := 9/10, method := "alias", candidates := ["berry"] }

/-- The typo-alias match result for "jasmin" against `snapTypo`. -/
def mTypoJasmin : MatchResult :=
  { key := "jasmine", label_en := "Jasmine", label_ko := "자스민",
    confidence := 9/10, method := "alias", candidates := ["jasmine"] }

/- ---------------------------------------------------------------------
Helper lemmas: sorting, alias resolution, strategy characterizations.
--------------------------------------------------------------------- -/

theorem mem_insertByPriority {x a : Alias} :
    ∀ {l : List Alias}, x ∈ insertByPriority a l ↔ x = a ∨ x ∈ l := by
  intro l
  induction l with
  | nil => simp [insertByPriority]
  | cons b bs ih =>
    simp only [insertByPriority]
    split
    · simp only [List.mem_cons, ih]
      tauto
    · simp [List.mem_cons]

theorem mem_sortByPriority_aux {x : Alias} :
    ∀ (l acc : List Alias),
      x ∈ l.foldl (fun acc a => insertByPriority a acc) acc → x ∈ acc ∨ x ∈ l := by
  intro l
  induction l with
  | nil => intro acc h; exact Or.inl h
  | cons a as ih =>
    intro acc h
    rcases ih (insertByPriority a acc) h with h1 | h1
    · rcases mem_insertByPriority.mp h1 with h2 | h2
      · exact Or.inr (by simp [h2])
      · exact Or.inl h2
    · exact Or.inr (List.mem_cons_of_mem _ h1)

theorem mem_sortByPriority {x : Alias} {l : List Alias}
    (h : x ∈ sortByPriority l) : x ∈ l := by
  rcases mem_sortByPriority_aux l [] h with h1 | h1
  · simp at h1
  · exact h1

theorem mem_pool {snap : Snapshot} {d : Domain} {p : Alias → Bool} {a : Alias}
    (h : a ∈ sortByPriority ((aliasesByDomain snap d).filter p)) :
    a ∈ snap.aliases ∧ a.domain = d ∧ p a = true := by
  have h1 := List.mem_filter.mp (mem_sortByPriority h)
  have h2 : a ∈ snap.aliases ∧ a.domain = d := by
    simpa [aliasesByDomain] using h1.1
  exact ⟨h2.1, h2.2, h1.2⟩

theorem matchFromAlias_ok_fields {snap : Snapshot} {a : Alias} {c : ℚ}
    {meth : String} {m : MatchResult}
    (h : matchFromAlias snap a c meth = .ok m) :
    m.method = meth ∧ m.confidence = c := by
  unfold matchFromAlias at h
  split at h
  · cases h
    exact ⟨rfl, rfl⟩
  · cases h

theorem matchFromAlias_error_lookup {snap : Snapshot} {a : Alias} {c : ℚ}
    {meth : String} {e : PyErr}
    (h : matchFromAlias snap a c meth = .error e) :
    e = .keyError ∧ termIndexLookup snap.terms a.domain a.key = none := by
  unfold matchFromAlias at h
  split at h
  · cases h
  · cases h
    exact ⟨rfl, by assumption⟩

theorem matchFromAlias_isOk {snap : Snapshot} {a : Alias} (c : ℚ) (meth : String)
    (h : (termIndexLookup snap.terms a.domain a.key).isSome = true) :
    ∃ m, matchFromAlias snap a c meth = .ok m := by
  unfold matchFromAlias
  cases hl : termIndexLookup snap.terms a.domain a.key with
  | some t => exact ⟨_, rfl⟩
  | none => rw [hl] at h; cases h

theorem firstAliasMatch_ok {snap : Snapshot} {test : Alias → Bool} {c : ℚ}
    {meth : String} :
    ∀ {l : List Alias},
      (∀ a ∈ l, (termIndexLookup snap.terms a.domain a.key).isSome = true) →
      ∃ o, firstAliasMatch snap test c meth l = .ok o := by
  intro l
  induction l with
  | nil => intro _; exact ⟨none, rfl⟩
  | cons a rest ih =>
    intro h
    unfold firstAliasMatch
    by_cases ht : test a
    · rw [if_pos ht]
      obtain ⟨m, hm⟩ := matchFromAlias_isOk c meth (h a (by simp))
      rw [hm]
      exact ⟨some m, rfl⟩
    · rw [if_neg ht]
      exact ih (fun x hx => h x (List.mem_cons_of_mem _ hx))

theorem firstAliasMatch_some {snap : Snapshot} {test : Alias → Bool} {c : ℚ}
    {meth : String} :
    ∀ {l : List Alias} {m : MatchResult},
      firstAliasMatch snap test c meth l = .ok (some m) →
      ∃ a ∈ l, test a = true ∧ matchFromAlias snap a c meth = .ok m := by
  intro l
  induction l with
  | nil => intro m h; cases h
  | cons a rest ih =>
    intro m h
    unfold firstAliasMatch at h
    by_cases ht : test a
    · rw [if_pos ht] at h
      cases hfa : matchFromAlias snap a c meth with
      | ok m2 =>
        rw [hfa] at h
        cases h
        exact ⟨a, by simp, ht, hfa⟩
      | error e => rw [hfa] at h; cases h
    · rw [if_neg ht] at h
      obtain ⟨x, hx, hx2⟩ := ih h
      exact ⟨x, List.mem_cons_of_mem _ hx, hx2⟩

theorem firstAliasMatch_error {snap : Snapshot} {test : Alias → Bool} {c : ℚ}
    {meth : String} :
    ∀ {l : List Alias} {e : PyErr},
      firstAliasMatch snap test c meth l = .error e →
      e = .keyError ∧ ∃ a ∈ l, test a = true ∧
        termIndexLookup snap.terms a.domain a.key = none := by
  intro l
  induction l with
  | nil => intro e h; cases h
  | cons a rest ih =>
    intro e h
    unfold firstAliasMatch at h
    by_cases ht : test a
    · rw [if_pos ht] at h
      cases hfa : matchFromAlias snap a c meth with
      | ok m2 => rw [hfa] at h; cases h
      | error e2 =>
        rw [hfa] at h
        cases h
        obtain ⟨he, hl⟩ := matchFromAlias_error_lookup hfa
        exact ⟨he, a, by simp, ht, hl⟩
    · rw [if_neg ht] at h
      obtain ⟨he, x, hx, hx2⟩ := ih h
      exact ⟨he, x, List.mem_cons_of_mem _ hx, hx2⟩

theorem findSome?_some_mem {α β : Type} {f : α → Option β} :
    ∀ {l : List α} {b : β}, l.findSome? f = some b → ∃ a ∈ l, f a = some b := by
  intro l
  induction l with
  | nil => intro b h; simp [List.findSome?] at h
  | cons x xs ih =>
    intro b h
    rw [List.findSome?] at h
    cases hx : f x with
    | some v =>
      rw [hx] at h
      cases h
      exact ⟨x, by simp, hx⟩
    | none =>
      rw [hx] at h
      obtain ⟨a, ha, hfa⟩ := ih h
      exact ⟨a, List.mem_cons_of_mem _ ha, hfa⟩

theorem findSome?_isSome_iff {α β : Type} {f : α → Option β} :
    ∀ {l : List α}, (l.findSome? f).isSome = true ↔ ∃ a ∈ l, (f a).isSome = true := by
  intro l
  induction l with
  | nil => simp [List.findSome?]
  | cons x xs ih =>
    rw [List.findSome?]
    cases hx : f x with
    | some v => simp [hx]
    | none => simp [hx, ih]

theorem matchExact_fields {snap : Snapshot} {d : Domain} {raw : String}
    {m : MatchResult} (h : matchExact snap d raw = some m) :
    m.method = "exact" ∧ m.confidence = 98/100 := by
  unfold matchExact at h
  obtain ⟨t, _, hft⟩ := findSome?_some_mem h
  by_cases hc :
      (candidatesOf t).any (fun c => normalizeText raw == normalizeText c) = true
  · rw [if_pos hc] at hft
    cases hft
    exact ⟨rfl, rfl⟩
  · rw [if_neg hc] at hft
    cases hft

theorem matchFuzzy_fields {ext : Ext} {snap : Snapshot} {cfg : NormalizationConfig}
    {d : Domain} {raw : String} {th : Option ℚ} {m : MatchResult}
    (h : matchFuzzy ext snap cfg d raw th = some m) :
    (fuzzyBest ext snap d raw).1 ≥ th.getD cfg.fuzzy_threshold ∧
    m.method = "fuzzy" ∧
    m.confidence = max (7/10) (min (85/100) (round2 (fuzzyBest ext snap d raw).1)) := by
  simp only [matchFuzzy] at h
  split at h
  · rename_i t hb
    split at h
    · rename_i hge
      cases h
      exact ⟨hge, rfl, rfl⟩
    · cases h
  · cases h

theorem clamp_mem_bounds (x : ℚ) :
    7/10 ≤ max (7/10) (min (85/100) x) ∧ max (7/10) (min (85/100) x) ≤ 85/100 :=
  ⟨le_max_left _ _, max_le (by norm_num) (min_le_left _ _)⟩

theorem enqueueUnknown_ok {env : Env} {cfg : NormalizationConfig}
    (h : envOk cfg env) : enqueueUnknown env cfg = .ok () := by
  unfold enqueueUnknown
  rcases h with h | h
  · rw [h]
  · cases hp : cfg.unknown_queue_path with
    | none => rfl
    | some p => rw [h]; rfl

theorem ne_empty_of_pyStrip_ne {r : String} (h : pyStrip r ≠ "") : r ≠ "" :=
  fun hr => h (by rw [hr]; rfl)

theorem matchAlias_isOk {snap : Snapshot} (d : Domain) (raw : String)
    (mt ak : Option (List String)) (hwf : WfSnapshot snap) :
    ∃ o, matchAlias snap d raw mt ak = .ok o := by
  simp only [matchAlias]
  exact firstAliasMatch_ok
    (fun a ha => hwf a (mem_pool (by simpa [aliasExactPool] using ha)).1)

theorem matchRegex_isOk (ext : Ext) {snap : Snapshot} (d : Domain) (raw : String)
    (hwf : WfSnapshot snap) :
    ∃ o, matchRegex ext snap d raw = .ok o := by
  simp only [matchRegex]
  exact firstAliasMatch_ok (fun a ha => hwf a (mem_pool ha).1)

theorem matchContains_isOk {snap : Snapshot} (d : Domain) (raw : String)
    (hwf : WfSnapshot snap) :
    ∃ o, matchContains snap d raw = .ok o := by
  simp only [matchContains]
  exact firstAliasMatch_ok (fun a ha => hwf a (mem_pool ha).1)

theorem matchPipeline_isOk (ext : Ext) (cfg : NormalizationConfig) {snap : Snapshot}
    (d : Domain) (value : String) (hwf : WfSnapshot snap) :
    ∃ o, matchPipeline ext cfg snap d value = .ok o := by
  unfold matchPipeline
  split
  · cases hE : matchExact snap d value with
    | some m => exact ⟨some m, rfl⟩
    | none =>
      obtain ⟨o, ho⟩ := matchAlias_isOk d value (some ["exact"]) (some ["typo"]) hwf
      rw [ho]
      cases o with
      | some m => exact ⟨some m, rfl⟩
      | none => exact ⟨_, rfl⟩
  · cases hE : matchExact snap d value with
    | some m => exact ⟨some m, rfl⟩
    | none =>
      obtain ⟨o, ho⟩ := matchAlias_isOk d value none none hwf
      rw [ho]
      cases o with
      | some m => exact ⟨some m, rfl⟩
      | none =>
        obtain ⟨o2, ho2⟩ := matchRegex_isOk ext d value hwf
        rw [ho2]
        cases o2 with
        | some m => exact ⟨some m, rfl⟩
        | none =>
          obtain ⟨o3, ho3⟩ := matchContains_isOk d value hwf
          rw [ho3]
          cases o3 with
          | some m => exact ⟨some m, rfl⟩
          | none => exact ⟨_, rfl⟩

theorem normalizeOne_pipeline_some {ext : Ext} {env : Env} {cfg : NormalizationConfig}
    {snap : Snapshot} {d : Domain} {r : String} {m : MatchResult}
    (hv : pyStrip r ≠ "") (henv : envOk cfg env)
    (hp : matchPipeline ext cfg snap d (pyStrip r) = .ok (some m)) :
    ∃ evs, normalizeOne ext env cfg snap d (some r) = .ok (mkItem d r m, evs) := by
  have hr : r ≠ "" := ne_empty_of_pyStrip_ne hv
  cases hmc : cfg.unknown_min_confidence with
  | none =>
    exact ⟨[], by simp only [normalizeOne, if_neg hr, if_neg hv, hp, hmc]⟩
  | some f =>
    by_cases hlt : (mkItem d r m).confidence < f
    · exact ⟨[mkEvent env cfg d r (mkItem d r m).confidence "low_confidence"
               (mkItem d r m).method (mkItem d r m).normalized_key],
        by simp only [normalizeOne, if_neg hr, if_neg hv, hp, hmc, if_pos hlt,
                      enqueueUnknown_ok henv]⟩
    · exact ⟨[], by simp only [normalizeOne, if_neg hr, if_neg hv, hp, hmc,
                               if_neg hlt]⟩

theorem normalizeOne_pipeline_none {ext : Ext} {env : Env} {cfg : NormalizationConfig}
    {snap : Snapshot} {d : Domain} {r : String}
    (hv : pyStrip r ≠ "") (henv : envOk cfg env)
    (hp : matchPipeline ext cfg snap d (pyStrip r) = .ok none) :
    normalizeOne ext env cfg snap d (some r) =
      .ok (unmappedItem d r,
           [mkEvent env cfg d r 0 "no_dictionary_match" "unmapped" none]) := by
  have hr : r ≠ "" := ne_empty_of_pyStrip_ne hv
  simp only [normalizeOne, if_neg hr, if_neg hv, hp, enqueueUnknown_ok henv]

theorem normalizeOne_isOk (ext : Ext) {env : Env} {cfg : NormalizationConfig}
    {snap : Snapshot} (d : Domain) (hwf : WfSnapshot snap) (henv : envOk cfg env) :
    ∀ raw : Option String, ∃ p, normalizeOne ext env cfg snap d raw = .ok p := by
  intro raw
  cases raw with
  | none => exact ⟨_, rfl⟩
  | some r =>
    by_cases hr : r = ""
    · subst hr
      exact ⟨_, rfl⟩
    · by_cases hv : pyStrip r = ""
      · exact ⟨(emptyItem d r, []), by simp only [normalizeOne, if_neg hr, if_pos hv]⟩
      · obtain ⟨o, ho⟩ := matchPipeline_isOk ext cfg d (pyStrip r) hwf
        cases o with
        | some m =>
          obtain ⟨evs, he⟩ := normalizeOne_pipeline_some hv henv ho
          exact ⟨_, he⟩
        | none => exact ⟨_, normalizeOne_pipeline_none hv henv ho⟩

theorem normalizeListGo_isOk {ext : Ext} {env : Env} {cfg : NormalizationConfig}
    {snap : Snapshot} {d : Domain} (hwf : WfSnapshot snap) (henv : envOk cfg env) :
    ∀ (l seen : List String),
      ∃ p, normalizeListGo ext env cfg snap d seen l = .ok p := by
  intro l
  induction l with
  | nil => intro seen; exact ⟨([], []), rfl⟩
  | cons r rest ih =>
    intro seen
    obtain ⟨⟨item, evs⟩, h1⟩ := normalizeOne_isOk ext d hwf henv (some r)
    by_cases hk : seen.contains (dedupeKey item) = true
    · obtain ⟨⟨items, evs2⟩, h2⟩ := ih seen
      exact ⟨(items, evs ++ evs2),
        by simp only [normalizeListGo, h1, if_pos hk, h2]⟩
    · obtain ⟨⟨items, evs2⟩, h2⟩ := ih (dedupeKey item :: seen)
      exact ⟨(item :: items, evs ++ evs2),
        by simp only [normalizeListGo, h1, if_neg hk, h2]⟩

theorem normalizeList_isOk (ext : Ext) {env : Env} {cfg : NormalizationConfig}
    {snap : Snapshot} (d : Domain) (hwf : WfSnapshot snap) (henv : envOk cfg env)
    (values : List String) :
    ∃ p, normalizeList ext env cfg snap d values = .ok p :=
  normalizeListGo_isOk hwf henv _ _

theorem normalizeOptField_isOk (ext : Ext) {env : Env} {cfg : NormalizationConfig}
    {snap : Snapshot} (d : Domain) (hwf : WfSnapshot snap) (henv : envOk cfg env)
    (field : Option String) :
    ∃ p, normalizeOptField ext env cfg snap d field = .ok p := by
  cases ht : truthyStr field with
  | none => exact ⟨(none, []), by simp only [normalizeOptField, ht]⟩
  | some v =>
    obtain ⟨⟨item, evs⟩, h1⟩ := normalizeOne_isOk ext d hwf henv (some v)
    exact ⟨(some item, evs), by simp only [normalizeOptField, ht, h1]⟩

theorem normalizeBeanInfo_isOk {ext : Ext} {env : Env} {cfg : NormalizationConfig}
    {snap : Snapshot} (hwf : WfSnapshot snap) (henv : envOk cfg env)
    (bean : BeanInfo) :
    ∃ p, normalizeBeanInfo ext env cfg snap bean = .ok p := by
  obtain ⟨⟨p1, e1⟩, h1⟩ :=
    normalizeOptField_isOk ext Domain.process hwf henv bean.process
  obtain ⟨⟨p2, e2⟩, h2⟩ :=
    normalizeOptField_isOk ext Domain.roast_level hwf henv bean.roast_level
  obtain ⟨⟨p3, e3⟩, h3⟩ := normalizeOptField_isOk ext Domain.country
    hwf henv (bean.origin.bind (fun o => o.country))
  obtain ⟨⟨v4, e4⟩, h4⟩ := normalizeList_isOk ext Domain.variety
    hwf henv (bean.variety.getD [])
  obtain ⟨⟨v5, e5⟩, h5⟩ := normalizeList_isOk ext Domain.flavor_note
    hwf henv (bean.flavor_notes.getD [])
  cases hx : normalizeBeanInfo ext env cfg snap bean with
  | ok p => exact ⟨p, rfl⟩
  | error e =>
    simp only [normalizeBeanInfo, h1, h2, h3, h4, h5] at hx
    exact (Except.noConfusion hx)

theorem normalizeBeanInfo_warnings {ext : Ext} {env : Env}
    {cfg : NormalizationConfig} {snap : Snapshot} {bean : BeanInfo}
    {r : NormalizedBeanInfo} {evs : List UnknownQueueEvent}
    (h : normalizeBeanInfo ext env cfg snap bean = .ok (r, evs)) :
    (∀ item, r.process = some item → item.method = "unmapped" →
      "process_unmapped" ∈ r.warnings) ∧
    (∀ item, r.roast_level = some item → item.method = "unmapped" →
      "roast_level_unmapped" ∈ r.warnings) ∧
    (∀ item, r.country = some item → item.method = "unmapped" →
      "country_unmapped" ∈ r.warnings) ∧
    (r.varieties.any (fun item => item.method = "unmapped") = true →
      "variety_partial_unmapped" ∈ r.warnings) ∧
    (r.flavor_notes.any (fun item => item.method = "unmapped") = true →
      "flavor_note_partial_unmapped" ∈ r.warnings) := by
  simp only [normalizeBeanInfo] at h
  split at h
  · cases h
  · split at h
    · cases h
    · split at h
      · cases h
      · split at h
        · cases h
        · split at h
          · cases h
          · injection h with h
            injection h with hR hE
            subst hR
            refine ⟨?_, ?_, ?_, ?_, ?_⟩
            · intro item hpi hm
              simp only at hpi
              subst hpi
              simp [hm, List.mem_append]
            · intro item hpi hm
              simp only at hpi
              subst hpi
              simp [hm, List.mem_append]
            · intro item hpi hm
              simp only at hpi
              subst hpi
              simp [hm, List.mem_append]
            · intro hany
              simp only at hany
              simp [hany, List.mem_append]
            · intro hany
              simp only at hany
              simp [hany, List.mem_append]

theorem matchAlias_some_src {snap : Snapshot} {d : Domain} {raw : String}
    {mt ak : Option (List String)} {m : MatchResult}
    (h : matchAlias snap d raw mt ak = .ok (some m)) :
    ∃ a ∈ snap.aliases, a.domain = d ∧ a.match_type = "exact" ∧
      (∀ kinds, ak = some kinds → a.alias_kind ∈ kinds) ∧
      normalizeText raw = normalizeText a.aliasText ∧
      matchFromAlias snap a (9/10) "alias" = .ok m := by
  simp only [matchAlias] at h
  obtain ⟨a, ha, htest, hfa⟩ := firstAliasMatch_some h
  have hp := mem_pool (by simpa [aliasExactPool] using ha)
  obtain ⟨hmem, hdom, hpred⟩ := hp
  simp only [Bool.and_eq_true, beq_iff_eq] at hpred
  refine ⟨a, hmem, hdom, hpred.1.1, ?_, by simpa using htest, hfa⟩
  intro kinds hk
  have h2 := hpred.2
  rw [hk] at h2
  simpa using h2

theorem normalizeOne_ok_inv {ext : Ext} {env : Env} {cfg : NormalizationConfig}
    {snap : Snapshot} {d : Domain} {r : String} {item : NormalizedItem}
    {evs : List UnknownQueueEvent}
    (hr : r ≠ "") (hv : pyStrip r ≠ "")
    (hrun : normalizeOne ext env cfg snap d (some r) = .ok (item, evs)) :
    (matchPipeline ext cfg snap d (pyStrip r) = .ok none ∧ item = unmappedItem d r) ∨
    (∃ m, matchPipeline ext cfg snap d (pyStrip r) = .ok (some m) ∧
      item = mkItem d r m) := by
  simp only [normalizeOne, if_neg hr, if_neg hv] at hrun
  cases hp : matchPipeline ext cfg snap d (pyStrip r) with
  | error e => rw [hp] at hrun; exact (Except.noConfusion hrun)
  | ok o =>
    rw [hp] at hrun
    cases o with
    | none =>
      cases hq : enqueueUnknown env cfg with
      | ok u =>
        rw [hq] at hrun
        injection hrun with hrun
        injection hrun with hI hE
        exact Or.inl ⟨rfl, hI.symm⟩
      | error e => rw [hq] at hrun; exact (Except.noConfusion hrun)
    | some m =>
      refine Or.inr ⟨m, rfl, ?_⟩
      cases hmc : cfg.unknown_min_confidence with
      | none =>
        rw [hmc] at hrun
        injection hrun with hrun
        injection hrun with hI hE
        exact hI.symm
      | some f =>
        simp only [hmc] at hrun
        by_cases hlt : (mkItem d r m).confidence < f
        · rw [if_pos hlt] at hrun
          cases hq : enqueueUnknown env cfg with
          | ok u =>
            rw [hq] at hrun
            injection hrun with hrun
            injection hrun with hI hE
            exact hI.symm
          | error e => rw [hq] at hrun; exact (Except.noConfusion hrun)
        · rw [if_neg hlt] at hrun
          injection hrun with hrun
          injection hrun with hI hE
          exact hI.symm

theorem normalizeOne_blank_inv {ext : Ext} {env : Env} {cfg : NormalizationConfig}
    {snap : Snapshot} {d : Domain} {r : String} {item : NormalizedItem}
    {evs : List UnknownQueueEvent}
    (hv : pyStrip r = "")
    (hrun : normalizeOne ext env cfg snap d (some r) = .ok (item, evs)) :
    item.method = "unmapped" := by
  by_cases hr : r = ""
  · subst hr
    simp only [normalizeOne] at hrun
    injection hrun with hrun
    injection hrun with hI hE
    rw [← hI]
    rfl
  · simp only [normalizeOne, if_neg hr, if_pos hv] at hrun
    injection hrun with hrun
    injection hrun with hI hE
    rw [← hI]
    rfl

theorem replaceChar_fuse (c : Char) :
    (fun c => if !(isWordChar c || isSpaceChar c) then ' ' else c)
      ((fun c => if c == '_' || c == '-' then ' ' else c) c) =
    (if c == '_' || c == '-' then ' '
     else if isWordChar c || isSpaceChar c then c else ' ') := by
  by_cases h1 : (c == '_' || c == '-') = true
  · simp [h1]
  · simp only [h1]
    by_cases h2 : (isWordChar c || isSpaceChar c) = true
    · simp [h1, h2]
    · simp [h1, h2]

theorem normalizeText_eq_amended (s : String) :
    normalizeText s = specNormalizeTextAmended s := by
  have hfun : ((fun c => if !(isWordChar c || isSpaceChar c) then ' ' else c) ∘
      fun c => if c == '_' || c == '-' then ' ' else c) =
      (fun c => if c == '_' || c == '-' then ' '
        else if isWordChar c || isSpaceChar c then c else ' ') := by
    funext c
    exact replaceChar_fuse c
  simp only [normalizeText, specNormalizeTextAmended, normalizeTextChars]
  rw [List.map_map, hfun]

theorem matchExact_isSome_iff {snap : Snapshot} {d : Domain} {raw : String} :
    (matchExact snap d raw).isSome = true ↔
      ∃ t ∈ termsByDomain snap d,
        (candidatesOf t).any (fun c => normalizeText raw == normalizeText c) = true := by
  simp only [matchExact]
  rw [findSome?_isSome_iff]
  constructor
  · rintro ⟨t, ht, hf⟩
    refine ⟨t, ht, ?_⟩
    by_cases hc :
        (candidatesOf t).any (fun c => normalizeText raw == normalizeText c) = true
    · exact hc
    · rw [if_neg hc] at hf
      cases hf
  · rintro ⟨t, ht, hc⟩
    exact ⟨t, ht, by rw [if_pos hc]; rfl⟩

/- ---------------------------------------------------------------------
Claim theorems.
--------------------------------------------------------------------- -/

/-- C10: for raw input that is None, empty, or whitespace-only,
`normalize_one` returns an item with reason `empty_input`, confidence 0,
no normalized key and the default method `unmapped`, attempts no
matching strategy, and emits no unknown-queue event. -/
theorem c10_empty_input (ext : Ext) (env : Env) (cfg : NormalizationConfig)
    (snap : Snapshot) (d : Domain) (raw : Option String)
    (hblank : raw = none ∨ ∃ s, raw = some s ∧ pyStrip s = "") :
    normalizeOne ext env cfg snap d raw = .ok (emptyItem d (raw.getD ""), []) ∧
    (emptyItem d (raw.getD "")).reason = some "empty_input" ∧
    (emptyItem d (raw.getD "")).confidence = 0 ∧
    (emptyItem d (raw.getD "")).normalized_key = none ∧
    (emptyItem d (raw.getD "")).method = "unmapped" := by
  refine ⟨?_, rfl, rfl, rfl, rfl⟩
  rcases hblank with h | ⟨s, hs, hstrip⟩
  · subst h
    rfl
  · subst hs
    by_cases hr : s = ""
    · subst hr
      rfl
    · simp only [normalizeOne, if_neg hr, if_pos hstrip, Option.getD]

theorem c10_empty_input_witness :
    normalizeOne extNoRegex envW cfgD snapP Domain.process (some "   ") =
      .ok (emptyItem Domain.process "   ", []) :=
  (c10_empty_input extNoRegex envW cfgD snapP Domain.process (some "   ")
    (Or.inr ⟨"   ", rfl, by decide⟩)).1

/-- C3 (code bug evaluation): with a configured but unwritable
unknown-queue log path, `normalize_one` raises `OSError` out of the
unguarded `path.open("a")` append instead of returning the
`NormalizedItem` — the enqueue path is not best-effort on the file
sink. -/
theorem c3_unwritable_path_raises :
    normalizeOne extNoRegex envRO cfgQueue snapP Domain.process
      (some "Mystery Process") = .error .osError := rfl

/-- C8 counterexample: engine construction with fuzzy_threshold = 2,
far outside [0, 1], succeeds; no ConfigurationError is raised (the
class does not exist in the codebase and thresholds are never
validated). -/
theorem c8_out_of_range_threshold_accepted :
    engineInit dataForV1 cfgBadThreshold = .ok snapP ∧
    (1 : ℚ) < cfgBadThreshold.fuzzy_threshold :=
  ⟨rfl, by norm_num [cfgBadThreshold]⟩

/-- C8 amended: construction validates nothing about the configuration —
it succeeds for every configuration whenever the requested version's
snapshot data is present — and when the data is missing it fails with
the ModuleNotFoundError/FileNotFoundError of the loader, there being no
DictionaryNotFound class; loading happens only at construction. -/
theorem c8_construction_behavior (dataFor : String → Option Snapshot)
    (cfg : NormalizationConfig) :
    (∀ snap, dataFor cfg.dictionary_version = some snap →
      engineInit dataFor cfg = .ok snap) ∧
    (dataFor cfg.dictionary_version = none →
      engineInit dataFor cfg = .error .fileNotFound) := by
  constructor
  · intro snap h
    simp only [engineInit, loadRepository, h]
  · intro h
    simp only [engineInit, loadRepository, h]

theorem c8_construction_behavior_witness :
    engineInit dataForV1 cfgD = .ok snapP ∧
    engineInit (fun _ => none) cfgD = .error .fileNotFound :=
  ⟨(c8_construction_behavior dataForV1 cfgD).1 snapP rfl,
   (c8_construction_behavior (fun _ => none) cfgD).2 rfl⟩

/-- C6 counterexample: with a snapshot holding a dangling alias, a raw
value matching that alias makes `normalize_one` raise `KeyError` from
the term-index lookup — the dangling alias is not silently
unmatchable. -/
theorem c6_dangling_alias_match_raises :
    normalizeOne extNoRegex envW cfgD snapDangling Domain.process
      (some "wet process") = .error .keyError := rfl

/-- C6 amended: engine construction never validates alias references
and succeeds for any snapshot, and a raw value that does not reach the
dangling alias is processed normally; but when alias matching fails it
fails precisely with `KeyError`, through some alias of the domain whose
term reference is dangling and whose normalized text equals the
normalized raw value. -/
theorem c6_dangling_alias_behavior (snap : Snapshot) (d : Domain) (raw : String)
    (mt ak : Option (List String)) (e : PyErr)
    (herr : matchAlias snap d raw mt ak = .error e) :
    e = .keyError ∧
    (∃ a ∈ snap.aliases, a.domain = d ∧
      termIndexLookup snap.terms a.domain a.key = none ∧
      normalizeText raw = normalizeText a.aliasText) ∧
    (∀ (dataFor : String → Option Snapshot) (cfg : NormalizationConfig),
      dataFor cfg.dictionary_version = some snap →
      engineInit dataFor cfg = .ok snap) := by
  simp only [matchAlias] at herr
  obtain ⟨he, a, ha, htest, hlook⟩ := firstAliasMatch_error herr
  obtain ⟨hmem, hdom, _⟩ := mem_pool (by simpa [aliasExactPool] using ha)
  refine ⟨he, ⟨a, hmem, hdom, hlook, by simpa using htest⟩, ?_⟩
  intro dataFor cfg h
  simp only [engineInit, loadRepository, h]

theorem c6_dangling_alias_behavior_witness :
    PyErr.keyError = PyErr.keyError ∧
    (∃ a ∈ snapDangling.aliases, a.domain = Domain.process ∧
      termIndexLookup snapDangling.terms a.domain a.key = none ∧
      normalizeText "wet process" = normalizeText a.aliasText) ∧
    (∀ (dataFor : String → Option Snapshot) (cfg : NormalizationConfig),
      dataFor cfg.dictionary_version = some snapDangling →
      engineInit dataFor cfg = .ok snapDangling) :=
  c6_dangling_alias_behavior snapDangling Domain.process "wet process"
    none none PyErr.keyError rfl

/-- C1: outside strict flavor-note mode (every non-flavor-note domain,
and flavor_note in legacy mode), `normalize_one` attempts the
strategies in the fixed order exact, alias-exact, alias-regex,
alias-contains, fuzzy, and returns the result of the first strategy
that succeeds, so a value satisfying two strategies resolves via the
earlier one. -/
theorem c1_strategy_precedence (ext : Ext) (env : Env) (cfg : NormalizationConfig)
    (snap : Snapshot) (d : Domain) (r : String)
    (hns : isStrictFlavorNote cfg d = false)
    (hv : pyStrip r ≠ "") (henv : envOk cfg env) :
    (∀ m, matchExact snap d (pyStrip r) = some m →
      ∃ evs, normalizeOne ext env cfg snap d (some r) = .ok (mkItem d r m, evs)) ∧
    (matchExact snap d (pyStrip r) = none →
      ∀ m, matchAlias snap d (pyStrip r) none none = .ok (some m) →
      ∃ evs, normalizeOne ext env cfg snap d (some r) = .ok (mkItem d r m, evs)) ∧
    (matchExact snap d (pyStrip r) = none →
      matchAlias snap d (pyStrip r) none none = .ok none →
      ∀ m, matchRegex ext snap d (pyStrip r) = .ok (some m) →
      ∃ evs, normalizeOne ext env cfg snap d (some r) = .ok (mkItem d r m, evs)) ∧
    (matchExact snap d (pyStrip r) = none →
      matchAlias snap d (pyStrip r) none none = .ok none →
      matchRegex ext snap d (pyStrip r) = .ok none →
      ∀ m, matchContains snap d (pyStrip r) = .ok (some m) →
      ∃ evs, normalizeOne ext env cfg snap d (some r) = .ok (mkItem d r m, evs)) ∧
    (matchExact snap d (pyStrip r) = none →
      matchAlias snap d (pyStrip r) none none = .ok none →
      matchRegex ext snap d (pyStrip r) = .ok none →
      matchContains snap d (pyStrip r) = .ok none →
      ∀ m, matchFuzzy ext snap cfg d (pyStrip r) none = some m →
      ∃ evs, normalizeOne ext env cfg snap d (some r) = .ok (mkItem d r m, evs)) := by
  refine ⟨?_, ?_, ?_, ?_, ?_⟩
  · intro m hE
    exact normalizeOne_pipeline_some hv henv (by simp [matchPipeline, hns, hE])
  · intro hE m hA
    exact normalizeOne_pipeline_some hv henv (by simp [matchPipeline, hns, hE, hA])
  · intro hE hA m hR
    exact normalizeOne_pipeline_some hv henv (by simp [matchPipeline, hns, hE, hA, hR])
  · intro hE hA hR m hC
    exact normalizeOne_pipeline_some hv henv
      (by simp [matchPipeline, hns, hE, hA, hR, hC])
  · intro hE hA hR hC m hF
    exact normalizeOne_pipeline_some hv henv
      (by simp [matchPipeline, hns, hE, hA, hR, hC, hF])

theorem c1_strategy_precedence_witness :
    ∃ evs, normalizeOne extNoRegex envW cfgD snapP Domain.process (some "Washed") =
      .ok (mkItem Domain.process "Washed" mExactWashed, evs) :=
  (c1_strategy_precedence extNoRegex envW cfgD snapP Domain.process "Washed"
    rfl (by decide) (Or.inl rfl)).1 mExactWashed rfl

/-- C2: every successful match carries the fixed per-strategy
confidence — 0.98 exact, 0.90 alias-exact, 0.88 alias-regex, 0.86
alias-contains — and a fuzzy match is granted only when the best
similarity ratio over all the domain terms' key/label_en/label_ko
reaches the active threshold, with confidence
clamp(round(ratio, 2), 0.70, 0.85), hence always inside [0.70, 0.85]. -/
theorem c2_confidence_policy (ext : Ext) (cfg : NormalizationConfig)
    (snap : Snapshot) (d : Domain) (raw : String) :
    (∀ m, matchExact snap d raw = some m → m.confidence = 98/100) ∧
    (∀ mt ak m, matchAlias snap d raw mt ak = .ok (some m) → m.confidence = 9/10) ∧
    (∀ m, matchRegex ext snap d raw = .ok (some m) → m.confidence = 88/100) ∧
    (∀ m, matchContains snap d raw = .ok (some m) → m.confidence = 86/100) ∧
    (∀ th m, matchFuzzy ext snap cfg d raw th = some m →
      (fuzzyBest ext snap d raw).1 ≥ th.getD cfg.fuzzy_threshold ∧
      m.confidence = max (7/10) (min (85/100) (round2 (fuzzyBest ext snap d raw).1)) ∧
      7/10 ≤ m.confidence ∧ m.confidence ≤ 85/100) := by
  refine ⟨?_, ?_, ?_, ?_, ?_⟩
  · intro m h
    exact (matchExact_fields h).2
  · intro mt ak m h
    simp only [matchAlias] at h
    obtain ⟨a, _, _, hfa⟩ := firstAliasMatch_some h
    exact (matchFromAlias_ok_fields hfa).2
  · intro m h
    simp only [matchRegex] at h
    obtain ⟨a, _, _, hfa⟩ := firstAliasMatch_some h
    exact (matchFromAlias_ok_fields hfa).2
  · intro m h
    simp only [matchContains] at h
    obtain ⟨a, _, _, hfa⟩ := firstAliasMatch_some h
    exact (matchFromAlias_ok_fields hfa).2
  · intro th m h
    obtain ⟨hge, _, hconf⟩ := matchFuzzy_fields h
    have hb := clamp_mem_bounds (round2 (fuzzyBest ext snap d raw).1)
    exact ⟨hge, hconf, by rw [hconf]; exact hb.1, by rw [hconf]; exact hb.2⟩

theorem c2_confidence_policy_witness :
    (fuzzyBest extUnit snapP Domain.process "washhed").1 ≥
      (none : Option ℚ).getD cfg1.fuzzy_threshold ∧
    mFuzzyUnit.confidence =
      max (7/10) (min (85/100) (round2 (fuzzyBest extUnit snapP Domain.process "washhed").1)) ∧
    7/10 ≤ mFuzzyUnit.confidence ∧ mFuzzyUnit.confidence ≤ 85/100 :=
  (c2_confidence_policy extUnit cfg1 snapP Domain.process "washhed").2.2.2.2
    none mFuzzyUnit rfl

/-- C4: when no strategy succeeds on a non-blank token, `normalize_one`
returns method unmapped, confidence 0, reason no_dictionary_match and
emits the corresponding unknown-queue event; `normalize_bean_info`
never fails for lack of dictionary coverage (given the assumed snapshot
invariant and a writable or unconfigured log sink) and appends the
domain-specific warning token — `{domain}_unmapped` for the single-value
domains, `{domain}_partial_unmapped` for the multi-value domains. -/
theorem c4_unmapped_handling (ext : Ext) (env : Env) (cfg : NormalizationConfig)
    (snap : Snapshot) (hwf : WfSnapshot snap) (henv : envOk cfg env) :
    (∀ d r, pyStrip r ≠ "" →
      matchPipeline ext cfg snap d (pyStrip r) = .ok none →
      normalizeOne ext env cfg snap d (some r) =
        .ok (unmappedItem d r,
          [mkEvent env cfg d r 0 "no_dictionary_match" "unmapped" none])) ∧
    (∀ d r, (unmappedItem d r).method = "unmapped" ∧
      (unmappedItem d r).confidence = 0 ∧
      (unmappedItem d r).reason = some "no_dictionary_match") ∧
    (∀ bean, ∃ p, normalizeBeanInfo ext env cfg snap bean = .ok p) ∧
    (∀ bean r evs, normalizeBeanInfo ext env cfg snap bean = .ok (r, evs) →
      (∀ item, r.process = some item → item.method = "unmapped" →
        "process_unmapped" ∈ r.warnings) ∧
      (∀ item, r.roast_level = some item → item.method = "unmapped" →
        "roast_level_unmapped" ∈ r.warnings) ∧
      (∀ item, r.country = some item → item.method = "unmapped" →
        "country_unmapped" ∈ r.warnings) ∧
      (r.varieties.any (fun item => item.method = "unmapped") = true →
        "variety_partial_unmapped" ∈ r.warnings) ∧
      (r.flavor_notes.any (fun item => item.method = "unmapped") = true →
        "flavor_note_partial_unmapped" ∈ r.warnings)) :=
  ⟨fun _ _ hv hp => normalizeOne_pipeline_none hv henv hp,
   fun _ _ => ⟨rfl, rfl, rfl⟩,
   fun bean => normalizeBeanInfo_isOk hwf henv bean,
   fun _ _ _ h => normalizeBeanInfo_warnings h⟩

theorem c4_unmapped_handling_witness :
    normalizeOne extNoRegex envW cfgD snapP Domain.process (some "Mystery Process") =
      .ok (unmappedItem Domain.process "Mystery Process",
        [mkEvent envW cfgD Domain.process "Mystery Process" 0
          "no_dictionary_match" "unmapped" none]) :=
  (c4_unmapped_handling extNoRegex envW cfgD snapP
      (by intro a ha
          simp only [snapP, List.mem_singleton] at ha
          subst ha
          rfl)
      (Or.inl rfl)).1
    Domain.process "Mystery Process" (by decide) rfl

/-- C7: when a strategy succeeds but the configured minimum-confidence
floor is strictly above the match confidence, `normalize_one` still
returns the matched item unchanged and additionally emits an
unknown-queue event with reason low_confidence carrying the matched
method and normalized key. -/
theorem c7_low_confidence_event (ext : Ext) (env : Env) (cfg : NormalizationConfig)
    (snap : Snapshot) (d : Domain) (r : String) (m : MatchResult) (f : ℚ)
    (hv : pyStrip r ≠ "") (henv : envOk cfg env)
    (hp : matchPipeline ext cfg snap d (pyStrip r) = .ok (some m))
    (hf : cfg.unknown_min_confidence = some f)
    (hlt : m.confidence < f) :
    normalizeOne ext env cfg snap d (some r) =
      .ok (mkItem d r m,
        [mkEvent env cfg d r m.confidence "low_confidence" m.method (some m.key)]) := by
  have hr := ne_empty_of_pyStrip_ne hv
  have hlt2 : (mkItem d r m).confidence < f := hlt
  simp only [normalizeOne, if_neg hr, if_neg hv, hp, hf, if_pos hlt2,
             enqueueUnknown_ok henv]
  rfl

theorem c7_low_confidence_event_witness :
    normalizeOne extNoRegex envW cfgFloor snapP Domain.process (some "Washed") =
      .ok (mkItem Domain.process "Washed" mExactWashed,
        [mkEvent envW cfgFloor Domain.process "Washed" mExactWashed.confidence
          "low_confidence" mExactWashed.method (some mExactWashed.key)]) :=
  c7_low_confidence_event extNoRegex envW cfgFloor snapP Domain.process "Washed"
    mExactWashed 1 (by decide) (Or.inl rfl) rfl rfl
    (by norm_num [mExactWashed])

/-- C5: in strict flavor-note mode an item resolved with method alias
can only come from an exact-type alias with alias_kind typo whose
normalized text equals the normalized raw token — never from an
alias_kind semantic entry — whereas legacy mode does resolve through a
semantic alias (shown on a concrete snapshot whose aliases are all
semantic). -/
theorem c5_strict_flavor_note (ext : Ext) (env : Env) (cfg : NormalizationConfig)
    (snap : Snapshot) (raw : String) (item : NormalizedItem)
    (evs : List UnknownQueueEvent)
    (hstrict : isStrictFlavorNote cfg Domain.flavor_note = true)
    (hrun : normalizeOne ext env cfg snap Domain.flavor_note (some raw) =
      .ok (item, evs))
    (hm : item.method = "alias") :
    (∃ a ∈ snap.aliases, a.domain = Domain.flavor_note ∧ a.match_type = "exact" ∧
      a.alias_kind = "typo" ∧
      normalizeText (pyStrip raw) = normalizeText a.aliasText) ∧
    (normalizeOne extNoRegex envW cfgLegacy snapSem Domain.flavor_note
        (some "berry-like") =
      .ok (mkItem Domain.flavor_note "berry-like" mAliasBerry, []) ∧
      mAliasBerry.method = "alias" ∧
      ∀ a ∈ snapSem.aliases, a.alias_kind = "semantic") := by
  refine ⟨?_, rfl, rfl, by decide⟩
  by_cases hr : raw = ""
  · subst hr
    simp only [normalizeOne] at hrun
    injection hrun with hrun
    injection hrun with hI hE
    rw [← hI] at hm
    exact absurd hm (by decide)
  · by_cases hv : pyStrip raw = ""
    · have hu := normalizeOne_blank_inv hv hrun
      rw [hu] at hm
      exact absurd hm (by decide)
    · rcases normalizeOne_ok_inv hr hv hrun with ⟨hp, hI⟩ | ⟨m, hp, hI⟩
      · rw [hI] at hm
        exact absurd (show ("unmapped" : String) = "alias" from hm) (by decide)
      · rw [hI] at hm
        simp only [mkItem] at hm
        simp only [matchPipeline, hstrict, if_true] at hp
        cases hE : matchExact snap Domain.flavor_note (pyStrip raw) with
        | some mE =>
          rw [hE] at hp
          injection hp with hp
          injection hp with hp
          rw [← hp] at hm
          rw [(matchExact_fields hE).1] at hm
          exact absurd hm (by decide)
        | none =>
          rw [hE] at hp
          cases hA : matchAlias snap Domain.flavor_note (pyStrip raw)
              (some ["exact"]) (some ["typo"]) with
          | error e =>
            rw [hA] at hp
            exact (Except.noConfusion hp)
          | ok o =>
            rw [hA] at hp
            cases o with
            | some mA =>
              injection hp with hp
              injection hp with hp
              obtain ⟨a, hmem, hdom, hmt, hkind, heq, _⟩ := matchAlias_some_src hA
              have hk := hkind ["typo"] rfl
              simp only [List.mem_singleton] at hk
              exact ⟨a, hmem, hdom, hmt, hk, heq⟩
            | none =>
              injection hp with hp
              obtain ⟨_, hmeth, _⟩ := matchFuzzy_fields hp
              rw [hmeth] at hm
              exact absurd hm (by decide)

theorem c5_strict_flavor_note_witness :
    (∃ a ∈ snapTypo.aliases, a.domain = Domain.flavor_note ∧
      a.match_type = "exact" ∧ a.alias_kind = "typo" ∧
      normalizeText (pyStrip "jasmin") = normalizeText a.aliasText) ∧
    (normalizeOne extNoRegex envW cfgLegacy snapSem Domain.flavor_note
        (some "berry-like") =
      .ok (mkItem Domain.flavor_note "berry-like" mAliasBerry, []) ∧
      mAliasBerry.method = "alias" ∧
      ∀ a ∈ snapSem.aliases, a.alias_kind = "semantic") :=
  c5_strict_flavor_note extNoRegex envW cfgD snapTypo "jasmin"
    (mkItem Domain.flavor_note "jasmin" mTypoJasmin) [] rfl rfl rfl

/-- C9 counterexample: the source normalizer does not STRIP
non-alphanumeric non-space characters, it replaces them with a space
(compare "a.b"), and it also trims outer whitespace up front (compare
" a"), so the literal §4.2 pipeline disagrees with the code. -/
theorem c9_strip_vs_replace :
    normalizeText "a.b" = "a b" ∧ specNormalizeText "a.b" = "ab" ∧
    normalizeText "a.b" ≠ specNormalizeText "a.b" ∧
    normalizeText " a" = "a" ∧ specNormalizeText " a" = " a" ∧
    normalizeText " a" ≠ specNormalizeText " a" := by
  refine ⟨by decide, by decide, by decide, by decide, by decide, by decide⟩

/-- C9 amended: the normalizer equals the amended pipeline —
canonicalize, casefold, trim outer whitespace, map underscore and
hyphen to a space, replace every remaining non-alphanumeric non-space
character with a space, collapse whitespace runs — and the exact-match
strategy succeeds precisely when some term candidate agrees with the
raw value under this normal form. -/
theorem c9_normalizer_pipeline (s : String) (snap : Snapshot) (d : Domain)
    (raw : String) :
    normalizeText s = specNormalizeTextAmended s ∧
    ((matchExact snap d raw).isSome = true ↔
      ∃ t ∈ termsByDomain snap d,
        (candidatesOf t).any
          (fun c => normalizeText raw == normalizeText c) = true) :=
  ⟨normalizeText_eq_amended s, matchExact_isSome_iff⟩

theorem c9_normalizer_pipeline_witness :
    normalizeText "Red-grape, Lavender" =
      specNormalizeTextAmended "Red-grape, Lavender" :=
  (c9_normalizer_pipeline "Red-grape, Lavender" snapP Domain.process "Washed").1

end BeanLens
